import Mathlib

/-!
# Verification of the ffigen mapping and resolution engine

Shallow embedding of `src/ffigen.ts`: the Type Mapper (`denoFFIType`),
parameter validation (`denoFFIParameter`), and the single sequential pass
over the definition list that builds the resolved-typedef table, the
symbol table and the run counters.

Conventions of the embedding:
* a JavaScript `null` result of the mapper is `Option.none`;
* a thrown JavaScript exception (the explicit `throw new Error` calls in
  `denoFFIParameter`, and the `TypeError` raised when a struct field has
  no `type` property and `denoFFIType(undefined)` dereferences `.tag`)
  is `Except.error`;
* the mutable `Map`/object tables are association lists with the
  `Map.set` semantics of replace-in-place-or-append (`setEntry`);
* fields of the input records that the engine never reads (`ns`,
  `location` on typedefs, `storage-class`, `bit-size`, `bit-alignment`)
  are omitted from the data model.
-/

/-- `Deno.NativeResultType`: the closed native type vocabulary, including
`void` and aggregates (`{ struct: [...] }`). -/
inductive NativeType where
  | u8 | i8 | u16 | i16 | u32 | i32 | u64 | i64 | f64
  | pointer
  | void
  | struct (fields : List NativeType)

/-- The `Type` descriptor of the input stream: a tag, an optional ordered
field list (aggregates), and an optional nested type (used on struct
fields, where the code reads `f.type`). -/
inductive Ty where
  | mk (tag : String) (fields : Option (List Ty)) (type : Option Ty)

/-- The `tag` property of a `Type`. -/
def Ty.tag : Ty → String
  | .mk t _ _ => t

/-- The `fields` property of a `Type`. -/
def Ty.fields : Ty → Option (List Ty)
  | .mk _ f _ => f

/-- The `type` property of a `Type`. -/
def Ty.type : Ty → Option Ty
  | .mk _ _ ty => ty

/-- A function parameter record: structural tag, name, type. -/
structure Parameter where
  tag : String
  name : String
  type : Ty

/-- One parsed `Definition` record. The `unknown` constructor stands for a
record whose discriminant tag is none of `typedef`/`struct`/`function`
(the `default` branch of the switch). A `struct` record carries its
top-level `fields` array (the code aliases the whole record as a `Type`
via `x.type = x`, so only its tag `"struct"` and its `fields` matter). -/
inductive Definition where
  | typedef (name : String) (type : Ty)
  | structDef (name : String) (fields : Option (List Ty))
  | function (name : String) (location : String) (variadic : Bool)
      (inl : Bool) (parameters : List Parameter) (returnType : Ty)
  | unknown (tag : String)

/-- Association-list lookup, mirroring `Map.get` / object indexing with
string keys. -/
def lookupE {α : Type} : List (String × α) → String → Option α
  | [], _ => none
  | (k', v) :: t, k => if k' = k then some v else lookupE t k

/-- Association-list update, mirroring `Map.set` / object property
assignment: replaces the value in place if the key is present, appends
otherwise. -/
def setEntry {α : Type} : List (String × α) → String → α → List (String × α)
  | [], k, v => [(k, v)]
  | (k', v') :: t, k, v =>
    if k' = k then (k, v) :: t else (k', v') :: setEntry t k v

/-- Number of entries of an association list carrying a given key. -/
def countKey {α : Type} : List (String × α) → String → Nat
  | [], _ => 0
  | (k', _) :: t, k => (if k' = k then 1 else 0) + countKey t k

/-- The fixed primitive table `tagMapping` from the source, verbatim. -/
def tagMapping : String → Option NativeType
  | "__uint16_t" => some .u16
  | "__uint32_t" => some .u32
  | "__uint64_t" => some .u64
  | "__uint8_t" => some .u8
  | "__int16_t" => some .i16
  | "__int32_t" => some .i32
  | "__int64_t" => some .i64
  | "__int8_t" => some .i8
  | ":int" => some .i32
  | ":unsigned-int" => some .u32
  | ":long" => some .i64
  | ":long-long" => some .i64
  | ":long-double" => some .f64
  | ":short" => some .i16
  | ":unsigned" => some .u32
  | ":unsigned-long" => some .u64
  | ":unsigned-short" => some .u16
  | ":unsigned-char" => some .u8
  | ":char" => some .u8
  | ":pointer" => some .pointer
  | ":function-pointer" => some .pointer
  | ":void" => some .void
  | _ => none

/-- Collapses a list of optional values to `some` list exactly when no
entry is `none`; used for the `parameters.includes(null)` check followed
by the `as Deno.NativeType[]` cast. -/
def allSome {α : Type} : List (Option α) → Option (List α)
  | [] => some []
  | none :: _ => none
  | some a :: t => (allSome t).map (a :: ·)

mutual
/-- `denoFFIType(t, hint?)` against a given state of `resolvedTypeDefs`.
For a struct tag it requires a field list, maps each field's `type`
(crashing with a `TypeError` when a field has none, as the JS does), and
builds the aggregate only when no field mapped to `null`. Otherwise it
consults the fixed table first, then the resolved-typedef table. The
`hint` only feeds the diagnostic message and has no semantic effect. -/
def denoFFIType (resolved : List (String × NativeType)) (t : Ty)
    (hint : Option String) : Except String (Option NativeType) :=
  match t with
  | .mk tag fields _ =>
    if tag = ":struct" ∨ tag = "struct" then
      match fields with
      | none => .ok none
      | some fs =>
        match mapStructFields resolved fs with
        | .error e => .error e
        | .ok rs =>
          match allSome rs with
          | none => .ok none
          | some nts => .ok (some (.struct nts))
    else
      .ok ((tagMapping tag).orElse fun _ => lookupE resolved tag)

/-- `t.fields!.map((f) => denoFFIType(f.type))`: evaluated left to right,
so a field with no `type` property raises the `TypeError` that
`denoFFIType(undefined)` would raise in JS. -/
def mapStructFields (resolved : List (String × NativeType)) :
    List Ty → Except String (List (Option NativeType))
  | [] => .ok []
  | .mk _ _ none :: _ => .error "TypeError: cannot read tag of undefined"
  | .mk _ _ (some ft) :: fs =>
    match denoFFIType resolved ft none with
    | .error e => .error e
    | .ok r =>
      match mapStructFields resolved fs with
      | .error e => .error e
      | .ok rs => .ok (r :: rs)
end

/-- `denoFFIParameter(p)`: throws on a parameter tag other than
`"parameter"`, maps the parameter's type, throws when the mapped result
is the void native type, and otherwise returns the (possibly `null`)
mapping. -/
def denoFFIParameter (resolved : List (String × NativeType))
    (p : Parameter) : Except String (Option NativeType) :=
  if p.tag ≠ "parameter" then
    .error ("unexpected parameter tag " ++ p.tag)
  else
    match denoFFIType resolved p.type none with
    | .error e => .error e
    | .ok (some .void) => .error ("unexpected void parameter " ++ p.name)
    | .ok ty => .ok ty

/-- `x.parameters.map(denoFFIParameter)`: evaluated left to right, the
first thrown exception aborts the whole map. -/
def mapParams (resolved : List (String × NativeType)) :
    List Parameter → Except String (List (Option NativeType))
  | [] => .ok []
  | p :: ps =>
    match denoFFIParameter resolved p with
    | .error e => .error e
    | .ok r =>
      match mapParams resolved ps with
      | .error e => .error e
      | .ok rs => .ok (r :: rs)

/-- One symbol-table entry: `{ parameters, result, doc }`. -/
structure ForeignFunction where
  parameters : List NativeType
  result : NativeType
  doc : String

/-- The mutable run state: the resolved-typedef table, the symbol table,
and the counters. -/
structure S where
  resolvedTypeDefs : List (String × NativeType)
  symbolSource : List (String × ForeignFunction)
  total : Nat
  generated : Nat
  totalTypeDefs : Nat
  generatedTypeDefs : Nat
  unknowns : List (String × Nat)

/-- The state before the pass: empty tables, zero counters. -/
def initialState : S :=
  { resolvedTypeDefs := []
    symbolSource := []
    total := 0
    generated := 0
    totalTypeDefs := 0
    generatedTypeDefs := 0
    unknowns := [] }

/-- The inner lookahead loop of the typedef case: scans the full
definition list for typedefs named `tyTag`, re-maps through each match,
threading both the running `result` variable and the table (the loop's
own `resolvedTypeDefs.set` is visible to later iterations). -/
def lookaheadLoop (name tyTag : String) :
    List Definition → Option NativeType → List (String × NativeType) →
    Except String (Option NativeType × List (String × NativeType))
  | [], result, resolved => .ok (result, resolved)
  | .typedef yname ytype :: ys, result, resolved =>
    if yname = tyTag then
      match denoFFIType resolved ytype (some name) with
      | .error e => .error e
      | .ok none => lookaheadLoop name tyTag ys none resolved
      | .ok (some v) =>
        lookaheadLoop name tyTag ys (some v) (setEntry resolved name v)
    else
      lookaheadLoop name tyTag ys result resolved
  | _ :: ys, result, resolved => lookaheadLoop name tyTag ys result resolved

/-- The shared typedef/struct-definition body: bump `totalTypeDefs`,
attempt the direct mapping, fall back to the one-hop lookahead when the
direct mapping is `null`, and on success register the name and bump
`generatedTypeDefs`. -/
def processTypedefLike (symbols : List Definition) (s : S) (name : String)
    (ty : Ty) : Except String S :=
  match denoFFIType s.resolvedTypeDefs ty (some name) with
  | .error e => .error e
  | .ok r0 =>
    match
      (match r0 with
       | some v => Except.ok (some v, s.resolvedTypeDefs)
       | none => lookaheadLoop name ty.tag symbols none s.resolvedTypeDefs)
    with
    | .error e => .error e
    | .ok (none, resolved) =>
      .ok { s with
              resolvedTypeDefs := resolved
              totalTypeDefs := s.totalTypeDefs + 1 }
    | .ok (some v, resolved) =>
      .ok { s with
              resolvedTypeDefs := setEntry resolved name v
              totalTypeDefs := s.totalTypeDefs + 1
              generatedTypeDefs := s.generatedTypeDefs + 1 }

/-- The function case: bump `total`; skip inline/variadic functions; map
all parameters (any throw aborts), skip when some parameter is unmapped;
map the return type (a throw aborts), skip when unmapped; otherwise
register the symbol and bump `generated`. -/
def processFunction (s : S) (name location : String)
    (variadic inl : Bool) (params : List Parameter) (ret : Ty) :
    Except String S :=
  if inl || variadic then
    .ok { s with total := s.total + 1 }
  else
    match mapParams s.resolvedTypeDefs params with
    | .error e => .error e
    | .ok parameters =>
      match allSome parameters with
      | none => .ok { s with total := s.total + 1 }
      | some ps =>
        match denoFFIType s.resolvedTypeDefs ret none with
        | .error e => .error e
        | .ok none => .ok { s with total := s.total + 1 }
        | .ok (some result) =>
          .ok { s with
                  total := s.total + 1
                  symbolSource :=
                    setEntry s.symbolSource name
                      { parameters := ps
                        result := result
                        doc := name ++ " @ " ++ location }
                  generated := s.generated + 1 }

/-- One iteration of the `for (const x of symbols)` switch. A `struct`
definition falls through into the typedef case carrying itself as its own
type (`x.type = x`), i.e. a `Type` whose tag is `"struct"` with the
record's field list. -/
def processDef (symbols : List Definition) (s : S) :
    Definition → Except String S
  | .typedef name ty => processTypedefLike symbols s name ty
  | .structDef name fields =>
    processTypedefLike symbols s name (Ty.mk "struct" fields none)
  | .function name location variadic inl params ret =>
    processFunction s name location variadic inl params ret
  | .unknown tag =>
    .ok { s with
            unknowns :=
              setEntry s.unknowns tag ((lookupE s.unknowns tag).getD 0 + 1) }

/-- Runs the pass over a suffix of the definition list from a given
state; `symbols` stays the full list because the lookahead scans all of
it. -/
def runDefs (symbols : List Definition) : S → List Definition →
    Except String S
  | s, [] => .ok s
  | s, d :: ds =>
    match processDef symbols s d with
    | .error e => .error e
    | .ok s' => runDefs symbols s' ds

/-- The whole pass over a definition list, from the initial state. -/
def run (symbols : List Definition) : Except String S :=
  runDefs symbols initialState symbols

/-- The `skipped` number printed in the function summary line. -/
def reportSkippedFunctions (s : S) : Nat :=
  s.total - s.generated

/-- Each field in the list carries an inner `type` whose mapping returns
(without throwing) the corresponding entry of `rs`. -/
inductive FieldsMapTo (resolved : List (String × NativeType)) :
    List Ty → List (Option NativeType) → Prop where
  | nil : FieldsMapTo resolved [] []
  | cons {ftag : String} {ffields : Option (List Ty)} {ft : Ty}
      {fs : List Ty} {r : Option NativeType} {rs : List (Option NativeType)} :
      denoFFIType resolved ft none = .ok r →
      FieldsMapTo resolved fs rs →
      FieldsMapTo resolved (Ty.mk ftag ffields (some ft) :: fs) (r :: rs)

/-- Each parameter carries the `"parameter"` tag and its type maps
(without throwing) to the corresponding entry of `rs`, never to the
`void` native type. -/
inductive ParamsMapTo (resolved : List (String × NativeType)) :
    List Parameter → List (Option NativeType) → Prop where
  | nil : ParamsMapTo resolved [] []
  | cons {p : Parameter} {r : Option NativeType} {ps : List Parameter}
      {rs : List (Option NativeType)} :
      p.tag = "parameter" →
      denoFFIType resolved p.type none = .ok r →
      r ≠ some .void →
      ParamsMapTo resolved ps rs →
      ParamsMapTo resolved (p :: ps) (r :: rs)

/-- Whether the definition list contains a typedef with the given name
(the candidates scanned by the lookahead loop). -/
def hasTypedefNamed (b : String) : List Definition → Bool
  | [] => false
  | .typedef n _ :: t => if n = b then true else hasTypedefNamed b t
  | _ :: t => hasTypedefNamed b t

/-- A parameter whose tag is the correct `"parameter"` marker but whose
type is a struct containing a field with no inner `type` property. -/
def crashParam : Parameter :=
  { tag := "parameter"
    name := "p"
    type := Ty.mk ":struct" (some [Ty.mk ":int" none none]) none }

/-- A function definition that is neither inline nor variadic, whose one
parameter is `crashParam` and whose return type maps fine. -/
def crashInput : List Definition :=
  [.function "f" "h.h:1" false false [crashParam] (Ty.mk ":int" none none)]

/-- Two typedefs sharing the name `"A"` with different underlying
primitive tags. -/
def dupNameInput : List Definition :=
  [ Definition.typedef "A" (Ty.mk ":unsigned-int" none none),
   Definition.typedef "A" (Ty.mk ":unsigned-long" none none)]

/-- The run state after the first `dupNameInput` definition. -/
def dupNameMidState : S :=
  { initialState with
      resolvedTypeDefs := [("A", .u32)]
      totalTypeDefs := 1
      generatedTypeDefs := 1 }

/-- The run state after both `dupNameInput` definitions. -/
def dupNameFinalState : S :=
  { initialState with
      resolvedTypeDefs := [("A", .u64)]
      totalTypeDefs := 2
      generatedTypeDefs := 2 }

/-! ## Helper lemmas about the table operations -/

theorem lookupE_setEntry {α : Type} (t : List (String × α)) (k k' : String)
    (v : α) :
    lookupE (setEntry t k v) k' = if k = k' then some v else lookupE t k' := by
  induction t with
  | nil => simp [setEntry, lookupE]
  | cons hd tl ih =>
    obtain ⟨k0, v0⟩ := hd
    by_cases h0 : k0 = k
    · subst h0
      simp only [setEntry, if_pos rfl, lookupE]
      by_cases h1 : k0 = k' <;> simp [lookupE, h1]
    · simp only [setEntry, if_neg h0, lookupE, ih]
      by_cases h1 : k0 = k'
      · have h2 : ¬(k = k') := fun h => h0 (h1.trans h.symm)
        simp [h1, h2]
      · simp [h1]

theorem setEntry_setEntry {α : Type} (t : List (String × α)) (k : String)
    (v w : α) : setEntry (setEntry t k v) k w = setEntry t k w := by
  induction t with
  | nil => simp [setEntry]
  | cons hd tl ih =>
    obtain ⟨k0, v0⟩ := hd
    by_cases h0 : k0 = k
    · subst h0
      simp [setEntry]
    · simp [setEntry, if_neg h0, ih]

theorem lookupE_isSome_setEntry {α : Type} (t : List (String × α))
    (k k' : String) (v : α) (h : (lookupE t k').isSome) :
    (lookupE (setEntry t k v) k').isSome := by
  rw [lookupE_setEntry]
  by_cases hk : k = k' <;> simp [hk, h]

theorem countKey_setEntry {α : Type} (t : List (String × α)) (k : String)
    (v : α) : countKey (setEntry t k v) k = max (countKey t k) 1 := by
  induction t with
  | nil => simp [setEntry, countKey]
  | cons hd tl ih =>
    obtain ⟨k0, v0⟩ := hd
    by_cases h0 : k0 = k
    · subst h0
      simp [setEntry, countKey]
    · simp [setEntry, countKey, if_neg h0, ih]

/-! ## Helper lemmas about `allSome` -/

theorem allSome_map_some {α : Type} (l : List α) :
    allSome (l.map some) = some l := by
  induction l with
  | nil => rfl
  | cons a t ih => simp [allSome, ih]

theorem allSome_eq_none_of_mem {α : Type} {rs : List (Option α)}
    (h : none ∈ rs) : allSome rs = none := by
  induction rs with
  | nil => cases h
  | cons r t ih =>
    cases r with
    | none => rfl
    | some a =>
      simp only [List.mem_cons] at h
      rcases h with h | h
      · cases h
      · simp [allSome, ih h]

theorem allSome_isSome_of_not_mem {α : Type} {rs : List (Option α)}
    (h : none ∉ rs) : ∃ l, allSome rs = some l := by
  induction rs with
  | nil => exact ⟨[], rfl⟩
  | cons r t ih =>
    cases r with
    | none => exact absurd (List.mem_cons_self _ _) h
    | some a =>
      obtain ⟨l, hl⟩ := ih fun hm => h (List.mem_cons_of_mem _ hm)
      exact ⟨a :: l, by simp [allSome, hl]⟩

/-! ## C1: all-or-nothing aggregate mapping -/

theorem mapStructFields_of_fieldsMapTo {resolved : List (String × NativeType)}
    {fs : List Ty} {rs : List (Option NativeType)}
    (h : FieldsMapTo resolved fs rs) :
    mapStructFields resolved fs = .ok rs := by
  induction h with
  | nil => rfl
  | cons hf _ ih => simp [mapStructFields, hf, ih]

/-- C1: for a struct-tagged `Type` whose fields all map, `denoFFIType`
returns the aggregate of the field native types in field order; if any
field maps to `null`, or the field list is absent, the whole mapping
returns `null` (no partial aggregate). -/
theorem C1_struct_all_or_nothing
    (resolved : List (String × NativeType)) (tag : String) (fs : List Ty)
    (rs : List (Option NativeType)) (oty : Option Ty) (hint : Option String)
    (htag : tag = ":struct" ∨ tag = "struct")
    (hfs : FieldsMapTo resolved fs rs) :
    (∀ nts : List NativeType, rs = nts.map some →
        denoFFIType resolved (Ty.mk tag (some fs) oty) hint =
          .ok (some (.struct nts))) ∧
    (none ∈ rs →
        denoFFIType resolved (Ty.mk tag (some fs) oty) hint = .ok none) ∧
    denoFFIType resolved (Ty.mk tag none oty) hint = .ok none := by
  have hmap := mapStructFields_of_fieldsMapTo hfs
  refine ⟨?_, ?_, ?_⟩
  · intro nts hnts
    subst hnts
    simp [denoFFIType, if_pos htag, hmap, allSome_map_some]
  · intro hnone
    simp [denoFFIType, if_pos htag, hmap, allSome_eq_none_of_mem hnone]
  · simp [denoFFIType, if_pos htag]

/-- Witness for C1 at a two-field struct (`:int`, `:char`) and at a
struct with an unmapped field. -/
theorem C1_struct_all_or_nothing_witness :
    denoFFIType []
        (Ty.mk ":struct"
          (some [Ty.mk "f0" none (some (Ty.mk ":int" none none)),
                 Ty.mk "f1" none (some (Ty.mk ":char" none none))]) none)
        none = .ok (some (.struct [.i32, .u8])) ∧
    denoFFIType []
        (Ty.mk ":struct"
          (some [Ty.mk "f0" none (some (Ty.mk ":int" none none)),
                 Ty.mk "f1" none (some (Ty.mk "mystery" none none))]) none)
        none = .ok none :=
  ⟨(C1_struct_all_or_nothing [] ":struct"
      [Ty.mk "f0" none (some (Ty.mk ":int" none none)),
       Ty.mk "f1" none (some (Ty.mk ":char" none none))]
      [some .i32, some .u8] none none (Or.inl rfl)
      (FieldsMapTo.cons rfl (FieldsMapTo.cons rfl FieldsMapTo.nil))).1
      [.i32, .u8] rfl,
   (C1_struct_all_or_nothing [] ":struct"
      [Ty.mk "f0" none (some (Ty.mk ":int" none none)),
       Ty.mk "f1" none (some (Ty.mk "mystery" none none))]
      [some .i32, none] none none (Or.inl rfl)
      (FieldsMapTo.cons rfl (FieldsMapTo.cons rfl FieldsMapTo.nil))).2.1
      (by simp)⟩

/-! ## C7: the fixed primitive table wins, absence is `null`, not error -/

/-- C7: a tag present in the fixed table maps to exactly the table's
native type in every resolved-typedef-table state (the fixed table is
consulted first); a non-struct tag absent from both tables maps to
`null`, never to an error. -/
theorem C7_fixed_table
    (resolved : List (String × NativeType)) (tag : String)
    (fl : Option (List Ty)) (oty : Option Ty) (hint : Option String) :
    (∀ nt : NativeType, tagMapping tag = some nt →
        denoFFIType resolved (Ty.mk tag fl oty) hint = .ok (some nt)) ∧
    (tagMapping tag = none → lookupE resolved tag = none →
        tag ≠ ":struct" → tag ≠ "struct" →
        denoFFIType resolved (Ty.mk tag fl oty) hint = .ok none) := by
  constructor
  · intro nt h
    have hne : ¬(tag = ":struct" ∨ tag = "struct") := by
      rintro (rfl | rfl)
      · rw [show tagMapping ":struct" = none from rfl] at h
        exact Option.noConfusion h
      · rw [show tagMapping "struct" = none from rfl] at h
        exact Option.noConfusion h
    unfold denoFFIType
    rw [if_neg hne, h]
    rfl
  · intro h1 h2 h3 h4
    have hne : ¬(tag = ":struct" ∨ tag = "struct") := by
      rintro (rfl | rfl)
      · exact h3 rfl
      · exact h4 rfl
    unfold denoFFIType
    rw [if_neg hne, h1]
    show Except.ok (lookupE resolved tag) = Except.ok none
    rw [h2]

/-- Witness for C7 at tag `:long-double` (present, maps to `f64`) and at
tag `MyOpaque` (absent from both tables, maps to `null`). -/
theorem C7_fixed_table_witness :
    denoFFIType [("t", .u8)] (Ty.mk ":long-double" none none) none =
      .ok (some .f64) ∧
    denoFFIType [("t", .u8)] (Ty.mk "MyOpaque" none none) none = .ok none :=
  ⟨(C7_fixed_table [("t", .u8)] ":long-double" none none none).1 .f64 rfl,
   (C7_fixed_table [("t", .u8)] "MyOpaque" none none none).2 rfl rfl
     (by decide) (by decide)⟩

/-! ## C10: plain char is unsigned -/

/-- C10: the Type Mapper sends `:char` to the unsigned `u8`, exactly as
`:unsigned-char`, in every table state — never to the signed `i8`. -/
theorem C10_char_unsigned
    (resolved : List (String × NativeType)) (fl : Option (List Ty))
    (oty : Option Ty) (hint : Option String) :
    denoFFIType resolved (Ty.mk ":char" fl oty) hint = .ok (some .u8) ∧
    denoFFIType resolved (Ty.mk ":unsigned-char" fl oty) hint =
      .ok (some .u8) ∧
    NativeType.u8 ≠ NativeType.i8 :=
  ⟨rfl, rfl, fun h => NativeType.noConfusion h⟩

/-! ## Lemmas about the function case -/

theorem denoFFIParameter_ok {resolved : List (String × NativeType)}
    {p : Parameter} {r : Option NativeType}
    (htag : p.tag = "parameter")
    (hty : denoFFIType resolved p.type none = .ok r)
    (hnv : r ≠ some .void) :
    denoFFIParameter resolved p = .ok r := by
  unfold denoFFIParameter
  rw [if_neg (not_not_intro htag), hty]
  cases r with
  | none => rfl
  | some nt =>
    cases nt with
    | void => exact absurd rfl hnv
    | _ => rfl

theorem mapParams_of_paramsMapTo {resolved : List (String × NativeType)}
    {ps : List Parameter} {rs : List (Option NativeType)}
    (h : ParamsMapTo resolved ps rs) :
    mapParams resolved ps = .ok rs := by
  induction h with
  | nil => rfl
  | cons htag hty hnv _ ih =>
    unfold mapParams
    rw [denoFFIParameter_ok htag hty hnv, ih]

theorem processFunction_skip {s : S} {name loc : String}
    {ps : List Parameter} {ret : Ty} {rs : List (Option NativeType)}
    (hps : mapParams s.resolvedTypeDefs ps = .ok rs)
    (hskip : allSome rs = none ∨
      (∃ ls, allSome rs = some ls) ∧
        denoFFIType s.resolvedTypeDefs ret none = .ok none) :
    processFunction s name loc false false ps ret =
      .ok { s with total := s.total + 1 } := by
  unfold processFunction
  rw [if_neg (by simp)]
  rcases hskip with ha | ⟨⟨ls, ha⟩, hret⟩
  · simp only [hps, ha]
  · simp only [hps, ha, hret]

theorem processFunction_success {s : S} {name loc : String}
    {ps : List Parameter} {ret : Ty} {rs : List (Option NativeType)}
    {nts : List NativeType} {r : NativeType}
    (hps : mapParams s.resolvedTypeDefs ps = .ok rs)
    (ha : allSome rs = some nts)
    (hret : denoFFIType s.resolvedTypeDefs ret none = .ok (some r)) :
    processFunction s name loc false false ps ret =
      .ok { s with
              total := s.total + 1
              symbolSource :=
                setEntry s.symbolSource name
                  { parameters := nts
                    result := r
                    doc := name ++ " @ " ++ loc }
              generated := s.generated + 1 } := by
  unfold processFunction
  rw [if_neg (by simp)]
  simp only [hps, ha, hret]

/-! ## C4: variadic / inline functions are skipped unconditionally -/

/-- C4: a function definition with the variadic or the inline flag set is
never entered into the symbol table, regardless of its parameters and
return type: the step only increments `total`, leaving `symbolSource` and
`generated` untouched. -/
theorem C4_variadic_inline_never_registered
    (symbols : List Definition) (s : S) (name loc : String)
    (variadic inl : Bool) (ps : List Parameter) (ret : Ty)
    (h : variadic = true ∨ inl = true) :
    processDef symbols s (.function name loc variadic inl ps ret) =
      .ok { s with total := s.total + 1 } := by
  show processFunction s name loc variadic inl ps ret = _
  unfold processFunction
  rcases h with rfl | rfl
  · rw [if_pos (by simp)]
  · rw [if_pos (by simp)]

/-- Witness for C4: a variadic function whose parameters and return type
would otherwise map fine. -/
theorem C4_variadic_inline_never_registered_witness :
    processDef [] initialState
        (.function "printf" "stdio.h:1" true false
          [{ tag := "parameter", name := "fmt",
             type := Ty.mk ":pointer" none none }]
          (Ty.mk ":int" none none)) =
      .ok { initialState with total := 1 } :=
  C4_variadic_inline_never_registered [] initialState "printf" "stdio.h:1"
    true false _ _ (Or.inl rfl)

/-! ## C6: unmapped parameter/return type causes a non-fatal skip -/

/-- C6: a function definition that is neither inline nor variadic, whose
parameter tags are all well-formed and map without throwing and without
producing `void`, but where some parameter mapping is `null` — or all
parameters map and the return type maps to `null` — is skipped
non-fatally: the step returns normally, adds no symbol-table entry,
increments `total` by one, leaves `generated` unchanged, and the reported
skipped count is `total - generated`. -/
theorem C6_unmapped_skipped_nonfatally
    (s : S) (name loc : String) (ps : List Parameter) (ret : Ty)
    (rs : List (Option NativeType))
    (hps : ParamsMapTo s.resolvedTypeDefs ps rs)
    (hfail : none ∈ rs ∨
      (none ∉ rs ∧ denoFFIType s.resolvedTypeDefs ret none = .ok none)) :
    processFunction s name loc false false ps ret =
      .ok { s with total := s.total + 1 } ∧
    reportSkippedFunctions { s with total := s.total + 1 } =
      (s.total + 1) - s.generated := by
  refine ⟨?_, rfl⟩
  refine processFunction_skip (mapParams_of_paramsMapTo hps) ?_
  rcases hfail with h | ⟨h, hret⟩
  · exact Or.inl (allSome_eq_none_of_mem h)
  · exact Or.inr ⟨allSome_isSome_of_not_mem h, hret⟩

/-- Witness for C6: the spec scenario — one parameter of an unmapped
custom struct tag, a mappable `:int` return type; `total` becomes 1 while
`generated` stays 0. -/
theorem C6_unmapped_skipped_nonfatally_witness :
    processFunction initialState "draw" "x.h:9" false false
        [{ tag := "parameter", name := "w",
           type := Ty.mk "Widget" none none }]
        (Ty.mk ":int" none none)
      = .ok { initialState with total := 1 } ∧
    reportSkippedFunctions { initialState with total := 1 } = 1 - 0 :=
  C6_unmapped_skipped_nonfatally initialState "draw" "x.h:9"
    [{ tag := "parameter", name := "w", type := Ty.mk "Widget" none none }]
    (Ty.mk ":int" none none) [none]
    (ParamsMapTo.cons rfl rfl (fun h => Option.noConfusion h)
      ParamsMapTo.nil)
    (Or.inl (List.mem_singleton.mpr rfl))

/-! ## C5: fatal aborts in the function case -/

theorem denoFFIParameter_error_of_bad {resolved : List (String × NativeType)}
    {p : Parameter}
    (h : p.tag ≠ "parameter" ∨
      denoFFIType resolved p.type none = .ok (some .void)) :
    ∃ e, denoFFIParameter resolved p = .error e := by
  unfold denoFFIParameter
  by_cases ht : p.tag ≠ "parameter"
  · rw [if_pos ht]
    exact ⟨_, rfl⟩
  · rcases h with h | h
    · exact absurd h ht
    · rw [if_neg ht]
      simp only [h]
      exact ⟨_, rfl⟩

theorem mapParams_error_of_mem {resolved : List (String × NativeType)}
    {ps : List Parameter} {p : Parameter} (hp : p ∈ ps)
    (he : ∃ e, denoFFIParameter resolved p = .error e) :
    ∃ e, mapParams resolved ps = .error e := by
  induction ps with
  | nil => cases hp
  | cons q qs ih =>
    unfold mapParams
    cases hq : denoFFIParameter resolved q with
    | error e => exact ⟨e, rfl⟩
    | ok r =>
      rcases List.mem_cons.mp hp with rfl | hmem
      · obtain ⟨e, he⟩ := he
        rw [hq] at he
        cases he
      · obtain ⟨e2, h2⟩ := ih hmem
        rw [h2]
        exact ⟨e2, rfl⟩

theorem processFunction_error_of_mapParams {s : S} {name loc : String}
    {ps : List Parameter} {ret : Ty} {e : String}
    (h : mapParams s.resolvedTypeDefs ps = .error e) :
    processFunction s name loc false false ps ret = .error e := by
  unfold processFunction
  rw [if_neg (by simp)]
  simp only [h]

theorem mapParams_error_exists {resolved : List (String × NativeType)}
    {ps : List Parameter} {e : String}
    (h : mapParams resolved ps = .error e) :
    ∃ p ∈ ps, ∃ e', denoFFIParameter resolved p = .error e' := by
  induction ps generalizing e with
  | nil => cases h
  | cons q qs ih =>
    unfold mapParams at h
    cases hq : denoFFIParameter resolved q with
    | error e0 => exact ⟨q, List.mem_cons_self _ _, e0, hq⟩
    | ok r =>
      rw [hq] at h
      cases hm : mapParams resolved qs with
      | error e1 =>
        obtain ⟨p, hmem, hp⟩ := ih hm
        exact ⟨p, List.mem_cons_of_mem _ hmem, hp⟩
      | ok rs =>
        rw [hm] at h
        cases h

theorem denoFFIParameter_error_cases {resolved : List (String × NativeType)}
    {p : Parameter} {e : String}
    (h : denoFFIParameter resolved p = .error e) :
    p.tag ≠ "parameter" ∨
    denoFFIType resolved p.type none = .ok (some .void) ∨
    ∃ e', denoFFIType resolved p.type none = .error e' := by
  unfold denoFFIParameter at h
  by_cases ht : p.tag ≠ "parameter"
  · exact Or.inl ht
  · rw [if_neg ht] at h
    cases hm : denoFFIType resolved p.type none with
    | error e' => exact Or.inr (Or.inr ⟨e', rfl⟩)
    | ok r =>
      rw [hm] at h
      cases r with
      | none => cases h
      | some nt =>
        cases nt with
        | void => exact Or.inr (Or.inl rfl)
        | _ => cases h

theorem processFunction_ret_error {s : S} {name loc : String}
    {ps : List Parameter} {ret : Ty} {rs : List (Option NativeType)}
    {nts : List NativeType} {e : String}
    (hm : mapParams s.resolvedTypeDefs ps = .ok rs)
    (ha : allSome rs = some nts)
    (hr : denoFFIType s.resolvedTypeDefs ret none = .error e) :
    processFunction s name loc false false ps ret = .error e := by
  unfold processFunction
  rw [if_neg (by simp)]
  simp only [hm, ha, hr]

/-- Counterexample to C5's claim that a bad parameter tag or a
void-mapping parameter are the *only* mapping conditions that abort the
run: `crashParam` has the correct `"parameter"` tag and its type does not
map to void (the mapper throws a `TypeError` instead, because the struct
field `{tag:":int"}` has no inner `type`), yet the whole run aborts. -/
theorem C5_counterexample_crash_escapes :
    crashParam.tag = "parameter" ∧
    denoFFIType initialState.resolvedTypeDefs crashParam.type none =
      .error "TypeError: cannot read tag of undefined" ∧
    run crashInput = .error "TypeError: cannot read tag of undefined" :=
  ⟨rfl, rfl, rfl⟩

/-- C5 (amended): for a function definition that is not skipped as
inline/variadic, a parameter tag differing from `"parameter"` or a
parameter mapping to the void native type always raises an error that
aborts the run; conversely, every abort arising from the function case is
caused by a bad parameter tag, a void-mapping parameter, or the Type
Mapper itself throwing on a parameter's or the return type's struct field
that has no inner type. -/
theorem C5_param_tag_and_void_abort :
    (∀ (s : S) (name loc : String) (ps : List Parameter) (ret : Ty)
        (p : Parameter), p ∈ ps →
      (p.tag ≠ "parameter" ∨
        denoFFIType s.resolvedTypeDefs p.type none = .ok (some .void)) →
      ∃ e, processFunction s name loc false false ps ret = .error e) ∧
    (∀ (s : S) (name loc : String) (ps : List Parameter) (ret : Ty)
        (e : String),
      processFunction s name loc false false ps ret = .error e →
      (∃ p ∈ ps, p.tag ≠ "parameter" ∨
          denoFFIType s.resolvedTypeDefs p.type none = .ok (some .void) ∨
          ∃ e', denoFFIType s.resolvedTypeDefs p.type none = .error e') ∨
      ∃ e', denoFFIType s.resolvedTypeDefs ret none = .error e') := by
  constructor
  · intro s name loc ps ret p hp hbad
    obtain ⟨e, he⟩ :=
      mapParams_error_of_mem hp (denoFFIParameter_error_of_bad hbad)
    exact ⟨e, processFunction_error_of_mapParams he⟩
  · intro s name loc ps ret e h
    cases hm : mapParams s.resolvedTypeDefs ps with
    | error e0 =>
      obtain ⟨p, hmem, e', hp⟩ := mapParams_error_exists hm
      exact Or.inl ⟨p, hmem, denoFFIParameter_error_cases hp⟩
    | ok rs =>
      cases ha : allSome rs with
      | none =>
        rw [processFunction_skip hm (Or.inl ha)] at h
        cases h
      | some nts =>
        cases hr : denoFFIType s.resolvedTypeDefs ret none with
        | error e1 => exact Or.inr ⟨e1, rfl⟩
        | ok r =>
          cases r with
          | none =>
            rw [processFunction_skip hm (Or.inr ⟨⟨nts, ha⟩, hr⟩)] at h
            cases h
          | some result =>
            rw [processFunction_success hm ha hr] at h
            cases h

/-- Witness for the amended C5 at a concrete bad-tag parameter. -/
theorem C5_param_tag_and_void_abort_witness :
    ∃ e, processFunction initialState "f" "l" false false
        [{ tag := "oops", name := "p", type := Ty.mk ":int" none none }]
        (Ty.mk ":int" none none) = .error e :=
  C5_param_tag_and_void_abort.1 initialState "f" "l"
    [{ tag := "oops", name := "p", type := Ty.mk ":int" none none }]
    (Ty.mk ":int" none none)
    { tag := "oops", name := "p", type := Ty.mk ":int" none none }
    (List.mem_singleton.mpr rfl)
    (Or.inl (by simp))

/-! ## Lemmas about the typedef case and the lookahead loop -/

theorem lookaheadLoop_no_match {name tyTag : String} {l : List Definition}
    {r : Option NativeType} {resolved : List (String × NativeType)}
    (h : hasTypedefNamed tyTag l = false) :
    lookaheadLoop name tyTag l r resolved = .ok (r, resolved) := by
  induction l generalizing r with
  | nil => rfl
  | cons d ds ih =>
    cases d with
    | typedef n yty =>
      unfold hasTypedefNamed at h
      by_cases hn : n = tyTag
      · rw [if_pos hn] at h
        cases h
      · rw [if_neg hn] at h
        unfold lookaheadLoop
        rw [if_neg hn]
        exact ih h
    | structDef n fl => exact ih h
    | function n loc va inl ps ret => exact ih h
    | unknown tg => exact ih h

theorem lookaheadLoop_append_no_match {name tyTag : String}
    {l1 : List Definition} (rest : List Definition)
    {r : Option NativeType} {resolved : List (String × NativeType)}
    (h : hasTypedefNamed tyTag l1 = false) :
    lookaheadLoop name tyTag (l1 ++ rest) r resolved =
      lookaheadLoop name tyTag rest r resolved := by
  induction l1 generalizing r with
  | nil => rfl
  | cons d ds ih =>
    cases d with
    | typedef n yty =>
      unfold hasTypedefNamed at h
      by_cases hn : n = tyTag
      · rw [if_pos hn] at h
        cases h
      · rw [if_neg hn] at h
        show lookaheadLoop name tyTag (.typedef n yty :: (ds ++ rest)) r
            resolved = _
        simp only [lookaheadLoop]
        rw [if_neg hn]
        exact ih h
    | structDef n fl => exact ih h
    | function n loc va inl ps ret => exact ih h
    | unknown tg => exact ih h

theorem lookaheadLoop_unique_hit {name tyTag : String} {tyB : Ty}
    {l2 : List Definition} {r : Option NativeType}
    {resolved : List (String × NativeType)} {v : NativeType}
    (h2 : hasTypedefNamed tyTag l2 = false)
    (hmap : denoFFIType resolved tyB (some name) = .ok (some v)) :
    lookaheadLoop name tyTag (Definition.typedef tyTag tyB :: l2) r
        resolved = .ok (some v, setEntry resolved name v) := by
  unfold lookaheadLoop
  rw [if_pos rfl]
  simp only [hmap]
  exact lookaheadLoop_no_match h2

theorem processTypedefLike_direct {symbols : List Definition} {s : S}
    {name : String} {ty : Ty} {v : NativeType}
    (h : denoFFIType s.resolvedTypeDefs ty (some name) = .ok (some v)) :
    processTypedefLike symbols s name ty =
      .ok { s with
              resolvedTypeDefs := setEntry s.resolvedTypeDefs name v
              totalTypeDefs := s.totalTypeDefs + 1
              generatedTypeDefs := s.generatedTypeDefs + 1 } := by
  unfold processTypedefLike
  simp only [h]

theorem processTypedefLike_one_hop {l1 l2 : List Definition} {s : S}
    {name : String} {ty tyB : Ty} {v : NativeType}
    (hdirect : denoFFIType s.resolvedTypeDefs ty (some name) = .ok none)
    (h1 : hasTypedefNamed ty.tag l1 = false)
    (h2 : hasTypedefNamed ty.tag l2 = false)
    (hmap : denoFFIType s.resolvedTypeDefs tyB (some name) = .ok (some v)) :
    processTypedefLike (l1 ++ Definition.typedef ty.tag tyB :: l2) s name
        ty =
      .ok { s with
              resolvedTypeDefs := setEntry s.resolvedTypeDefs name v
              totalTypeDefs := s.totalTypeDefs + 1
              generatedTypeDefs := s.generatedTypeDefs + 1 } := by
  unfold processTypedefLike
  simp only [hdirect]
  rw [lookaheadLoop_append_no_match _ h1]
  simp only [lookaheadLoop_unique_hit h2 hmap, setEntry_setEntry]

/-! ## C2: one-hop resolution of a typedef referencing a typedef -/

/-- C2: a typedef whose underlying type's tag is the name of another
typedef (defined anywhere in the input list, before or after) that maps
directly — either the direct mapping already succeeds (e.g. the
referenced name was registered earlier) or the one-hop lookahead finds the
unique typedef of that name and maps its type — gets its name registered
in the resolved-typedef table with that native type; in particular the
input `[{"tag":"typedef","name":"__uint32_t","type":{"tag":":unsigned-int"}}]`
yields the table entry `"__uint32_t" → u32`. -/
theorem C2_one_hop_resolution :
    (∀ (l1 l2 : List Definition) (s : S) (name : String) (ty tyB : Ty)
        (v : NativeType),
      hasTypedefNamed ty.tag l1 = false →
      hasTypedefNamed ty.tag l2 = false →
      (denoFFIType s.resolvedTypeDefs ty (some name) = .ok (some v) ∨
        (denoFFIType s.resolvedTypeDefs ty (some name) = .ok none ∧
          denoFFIType s.resolvedTypeDefs tyB (some name) = .ok (some v))) →
      ∃ s', processTypedefLike (l1 ++ Definition.typedef ty.tag tyB :: l2)
              s name ty = .ok s' ∧
            lookupE s'.resolvedTypeDefs name = some v) ∧
    run [ Definition.typedef "__uint32_t" (Ty.mk ":unsigned-int" none none)] =
      .ok { initialState with
              resolvedTypeDefs := [("__uint32_t", .u32)]
              totalTypeDefs := 1
              generatedTypeDefs := 1 } := by
  constructor
  · intro l1 l2 s name ty tyB v h1 h2 hcase
    rcases hcase with hd | ⟨hd, hb⟩
    · refine ⟨_, processTypedefLike_direct hd, ?_⟩
      show lookupE (setEntry s.resolvedTypeDefs name v) name = some v
      rw [lookupE_setEntry]
      simp
    · refine ⟨_, processTypedefLike_one_hop hd h1 h2 hb, ?_⟩
      show lookupE (setEntry s.resolvedTypeDefs name v) name = some v
      rw [lookupE_setEntry]
      simp
  · rfl

/-- Witness for C2: typedef `A` references typedef `B` defined after it;
`A` resolves to `i32` through the one-hop lookahead. -/
theorem C2_one_hop_resolution_witness :
    ∃ s', processTypedefLike
        [ Definition.typedef "A" (Ty.mk "B" none none),
         Definition.typedef "B" (Ty.mk ":int" none none)]
        initialState "A" (Ty.mk "B" none none) = .ok s' ∧
      lookupE s'.resolvedTypeDefs "A" = some .i32 :=
  C2_one_hop_resolution.1 [ Definition.typedef "A" (Ty.mk "B" none none)] []
    initialState "A" (Ty.mk "B" none none) (Ty.mk ":int" none none) .i32
    rfl rfl (Or.inr ⟨rfl, rfl⟩)

/-! ## C3: struct definitions are registered as typedefs -/

theorem denoFFIType_struct_shape {resolved : List (String × NativeType)}
    {tag : String} {fl : Option (List Ty)} {oty : Option Ty}
    {hint : Option String} {v : NativeType}
    (htag : tag = ":struct" ∨ tag = "struct")
    (h : denoFFIType resolved (Ty.mk tag fl oty) hint = .ok (some v)) :
    ∃ nts, v = .struct nts := by
  unfold denoFFIType at h
  rw [if_pos htag] at h
  cases fl with
  | none => cases h
  | some fs =>
    have h' : (match mapStructFields resolved fs with
               | Except.error e => Except.error e
               | Except.ok rs =>
                 match allSome rs with
                 | none => Except.ok none
                 | some nts => Except.ok (some (NativeType.struct nts))) =
        Except.ok (some v) := h
    cases hm : mapStructFields resolved fs with
    | error e =>
      rw [hm] at h'
      cases h'
    | ok rs =>
      rw [hm] at h'
      have h2 : (match allSome rs with
                 | none => Except.ok none
                 | some nts =>
                   Except.ok (some (NativeType.struct nts))) =
          Except.ok (some v) := h'
      cases ha : allSome rs with
      | none =>
        rw [ha] at h2
        cases h2
      | some nts =>
        rw [ha] at h2
        cases h2
        exact ⟨nts, rfl⟩

/-- C3: a struct definition is treated as a typedef for its own
aggregate type: when the direct mapping of its (struct-tagged) type
succeeds, the struct's name is registered in the resolved-typedef table
with the resulting native type, which is an aggregate; when the direct
mapping is `null` and the one-hop lookahead succeeds through the unique
typedef named `"struct"`, the name is registered with the hop's result. -/
theorem C3_struct_registered_as_typedef :
    (∀ (symbols : List Definition) (s : S) (name : String)
        (fields : Option (List Ty)) (v : NativeType),
      denoFFIType s.resolvedTypeDefs (Ty.mk "struct" fields none)
          (some name) = .ok (some v) →
      (∃ nts, v = .struct nts) ∧
      processDef symbols s (.structDef name fields) =
        .ok { s with
                resolvedTypeDefs := setEntry s.resolvedTypeDefs name v
                totalTypeDefs := s.totalTypeDefs + 1
                generatedTypeDefs := s.generatedTypeDefs + 1 } ∧
      lookupE (setEntry s.resolvedTypeDefs name v) name = some v) ∧
    (∀ (l1 l2 : List Definition) (s : S) (name : String)
        (fields : Option (List Ty)) (tyB : Ty) (v : NativeType),
      hasTypedefNamed "struct" l1 = false →
      hasTypedefNamed "struct" l2 = false →
      denoFFIType s.resolvedTypeDefs (Ty.mk "struct" fields none)
          (some name) = .ok none →
      denoFFIType s.resolvedTypeDefs tyB (some name) = .ok (some v) →
      ∃ s', processDef (l1 ++ Definition.typedef "struct" tyB :: l2) s
              (.structDef name fields) = .ok s' ∧
            lookupE s'.resolvedTypeDefs name = some v) := by
  constructor
  · intro symbols s name fields v h
    refine ⟨denoFFIType_struct_shape (Or.inr rfl) h, ?_, ?_⟩
    · show processTypedefLike symbols s name (Ty.mk "struct" fields none) = _
      exact processTypedefLike_direct h
    · rw [lookupE_setEntry]
      simp
  · intro l1 l2 s name fields tyB v h1 h2 hd hb
    refine ⟨{ s with
                resolvedTypeDefs := setEntry s.resolvedTypeDefs name v
                totalTypeDefs := s.totalTypeDefs + 1
                generatedTypeDefs := s.generatedTypeDefs + 1 }, ?_, ?_⟩
    · show processTypedefLike (l1 ++ Definition.typedef "struct" tyB :: l2)
        s name (Ty.mk "struct" fields none) = _
      exact processTypedefLike_one_hop hd h1 h2 hb
    · show lookupE (setEntry s.resolvedTypeDefs name v) name = some v
      rw [lookupE_setEntry]
      simp

/-- Witness for C3: a one-field struct `Point` registers under its own
name with the aggregate `struct [i32]`. -/
theorem C3_struct_registered_as_typedef_witness :
    (∃ nts, NativeType.struct [.i32] = NativeType.struct nts) ∧
    processDef [] initialState
        (.structDef "Point"
          (some [Ty.mk "x" none (some (Ty.mk ":int" none none))])) =
      .ok { initialState with
              resolvedTypeDefs :=
                setEntry initialState.resolvedTypeDefs "Point"
                  (NativeType.struct [.i32])
              totalTypeDefs := initialState.totalTypeDefs + 1
              generatedTypeDefs := initialState.generatedTypeDefs + 1 } ∧
    lookupE
        (setEntry initialState.resolvedTypeDefs "Point"
          (NativeType.struct [.i32])) "Point" =
      some (NativeType.struct [.i32]) :=
  C3_struct_registered_as_typedef.1 [] initialState "Point"
    (some [Ty.mk "x" none (some (Ty.mk ":int" none none))])
    (NativeType.struct [.i32]) rfl

/-! ## C8: evolution of the resolved-typedef table across a run -/

/-- Counterexample to C8's claim that a typedef name is bound to at most
one NativeType over the whole run: with two typedefs both named `"A"`,
the table holds `A → u32` after the first definition and `A → u64` at the
end of the run — the name is re-bound to a different NativeType. -/
theorem C8_counterexample_rebound :
    runDefs dupNameInput initialState
        [ Definition.typedef "A" (Ty.mk ":unsigned-int" none none)] =
      .ok dupNameMidState ∧
    lookupE dupNameMidState.resolvedTypeDefs "A" = some .u32 ∧
    run dupNameInput = .ok dupNameFinalState ∧
    lookupE dupNameFinalState.resolvedTypeDefs "A" = some .u64 ∧
    NativeType.u32 ≠ NativeType.u64 :=
  ⟨rfl, rfl, rfl, rfl, fun h => NativeType.noConfusion h⟩

theorem lookaheadLoop_table_mono {name tyTag : String} :
    ∀ {l : List Definition} {r r' : Option NativeType}
      {tbl tbl' : List (String × NativeType)},
    lookaheadLoop name tyTag l r tbl = .ok (r', tbl') →
    ∀ k, (lookupE tbl k).isSome → (lookupE tbl' k).isSome := by
  intro l
  induction l with
  | nil =>
    intro r r' tbl tbl' h k hk
    cases h
    exact hk
  | cons d ds ih =>
    intro r r' tbl tbl' h k hk
    cases d with
    | typedef n yty =>
      by_cases hn : n = tyTag
      · unfold lookaheadLoop at h
        rw [if_pos hn] at h
        cases hm : denoFFIType tbl yty (some name) with
        | error e =>
          rw [hm] at h
          cases h
        | ok ro =>
          rw [hm] at h
          cases ro with
          | none => exact ih h k hk
          | some v => exact ih h k (lookupE_isSome_setEntry _ _ _ _ hk)
      · unfold lookaheadLoop at h
        rw [if_neg hn] at h
        exact ih h k hk
    | structDef n fl => exact ih h k hk
    | function n loc va inl ps ret => exact ih h k hk
    | unknown tg => exact ih h k hk

theorem processTypedefLike_table_mono {symbols : List Definition} {s : S}
    {name : String} {ty : Ty} {s' : S}
    (h : processTypedefLike symbols s name ty = .ok s') :
    ∀ k, (lookupE s.resolvedTypeDefs k).isSome →
      (lookupE s'.resolvedTypeDefs k).isSome := by
  intro k hk
  unfold processTypedefLike at h
  cases hd : denoFFIType s.resolvedTypeDefs ty (some name) with
  | error e =>
    rw [hd] at h
    cases h
  | ok r0 =>
    rw [hd] at h
    cases r0 with
    | some v =>
      have h' : Except.ok
          { s with
              resolvedTypeDefs := setEntry s.resolvedTypeDefs name v
              totalTypeDefs := s.totalTypeDefs + 1
              generatedTypeDefs := s.generatedTypeDefs + 1 } =
          Except.ok s' := h
      cases h'
      exact lookupE_isSome_setEntry _ _ _ _ hk
    | none =>
      cases hl : lookaheadLoop name ty.tag symbols none s.resolvedTypeDefs
          with
      | error e =>
        rw [hl] at h
        cases h
      | ok pair =>
        obtain ⟨ro, resolved⟩ := pair
        rw [hl] at h
        cases ro with
        | none =>
          have h' : Except.ok
              { s with
                  resolvedTypeDefs := resolved
                  totalTypeDefs := s.totalTypeDefs + 1 } =
              Except.ok s' := h
          cases h'
          exact lookaheadLoop_table_mono hl k hk
        | some v =>
          have h' : Except.ok
              { s with
                  resolvedTypeDefs := setEntry resolved name v
                  totalTypeDefs := s.totalTypeDefs + 1
                  generatedTypeDefs := s.generatedTypeDefs + 1 } =
              Except.ok s' := h
          cases h'
          exact lookupE_isSome_setEntry _ _ _ _
            (lookaheadLoop_table_mono hl k hk)

theorem processFunction_resolved_eq {s : S} {name loc : String}
    {variadic inl : Bool} {ps : List Parameter} {ret : Ty} {s' : S}
    (h : processFunction s name loc variadic inl ps ret = .ok s') :
    s'.resolvedTypeDefs = s.resolvedTypeDefs := by
  by_cases hb : (inl || variadic) = true
  · unfold processFunction at h
    rw [if_pos hb] at h
    cases h
    rfl
  · obtain ⟨hinl, hvar⟩ :=
      Bool.or_eq_false_iff.mp (Bool.not_eq_true _ ▸ hb : (inl || variadic) = false)
    subst hinl
    subst hvar
    cases hm : mapParams s.resolvedTypeDefs ps with
    | error e =>
      rw [processFunction_error_of_mapParams hm] at h
      cases h
    | ok rs =>
      cases ha : allSome rs with
      | none =>
        rw [processFunction_skip hm (Or.inl ha)] at h
        cases h
        rfl
      | some nts =>
        cases hr : denoFFIType s.resolvedTypeDefs ret none with
        | error e =>
          rw [processFunction_ret_error hm ha hr] at h
          cases h
        | ok ro =>
          cases ro with
          | none =>
            rw [processFunction_skip hm (Or.inr ⟨⟨nts, ha⟩, hr⟩)] at h
            cases h
            rfl
          | some r =>
            rw [processFunction_success hm ha hr] at h
            cases h
            rfl

theorem processDef_table_mono {symbols : List Definition} {s s' : S}
    {d : Definition} (h : processDef symbols s d = .ok s') :
    ∀ k, (lookupE s.resolvedTypeDefs k).isSome →
      (lookupE s'.resolvedTypeDefs k).isSome := by
  intro k hk
  cases d with
  | typedef name ty => exact processTypedefLike_table_mono h k hk
  | structDef name fields => exact processTypedefLike_table_mono h k hk
  | function name loc va inl ps ret =>
    rw [processFunction_resolved_eq h]
    exact hk
  | unknown tg =>
    cases h
    exact hk

theorem runDefs_append_ok {symbols : List Definition} :
    ∀ {l1 l2 : List Definition} {s s1 : S},
    runDefs symbols s l1 = .ok s1 →
    runDefs symbols s (l1 ++ l2) = runDefs symbols s1 l2 := by
  intro l1
  induction l1 with
  | nil =>
    intro l2 s s1 h
    cases h
    rfl
  | cons d ds ih =>
    intro l2 s s1 h
    unfold runDefs at h
    show (match processDef symbols s d with
          | Except.error e => Except.error e
          | Except.ok st => runDefs symbols st (ds ++ l2)) =
        runDefs symbols s1 l2
    cases hd : processDef symbols s d with
    | error e =>
      rw [hd] at h
      cases h
    | ok st =>
      rw [hd] at h
      exact ih h

theorem runDefs_table_mono {symbols : List Definition} :
    ∀ {l : List Definition} {s s' : S}, runDefs symbols s l = .ok s' →
    ∀ k, (lookupE s.resolvedTypeDefs k).isSome →
      (lookupE s'.resolvedTypeDefs k).isSome := by
  intro l
  induction l with
  | nil =>
    intro s s' h k hk
    cases h
    exact hk
  | cons d ds ih =>
    intro s s' h k hk
    unfold runDefs at h
    cases hd : processDef symbols s d with
    | error e =>
      rw [hd] at h
      cases h
    | ok s1 =>
      rw [hd] at h
      exact ih h k (processDef_table_mono hd k hk)

/-- C8 (amended): across any run, the resolved-typedef table only grows —
an entry present at an intermediate state of the pass is still present
(bound to some NativeType, never removed, never null) at any later state.
(A name can, however, be re-bound to a different NativeType when several
input definitions share a name, as the counterexample shows.) -/
theorem C8_table_only_grows (symbols l1 l2 : List Definition) (s1 s2 : S)
    (h1 : runDefs symbols initialState l1 = .ok s1)
    (h2 : runDefs symbols initialState (l1 ++ l2) = .ok s2) :
    ∀ k, (lookupE s1.resolvedTypeDefs k).isSome →
      (lookupE s2.resolvedTypeDefs k).isSome := by
  intro k hk
  rw [runDefs_append_ok h1] at h2
  exact runDefs_table_mono h2 k hk

/-- Witness for the amended C8: the entry registered by the first typedef
is still present after a second, unrelated typedef is processed. -/
theorem C8_table_only_grows_witness :
    (lookupE
        ({ initialState with
             resolvedTypeDefs := [("A", .i32), ("Z", .u8)]
             totalTypeDefs := 2
             generatedTypeDefs := 2 } : S).resolvedTypeDefs "A").isSome =
      true :=
  C8_table_only_grows
    [ Definition.typedef "A" (Ty.mk ":int" none none),
     Definition.typedef "Z" (Ty.mk ":char" none none)]
    [ Definition.typedef "A" (Ty.mk ":int" none none)]
    [ Definition.typedef "Z" (Ty.mk ":char" none none)]
    { initialState with
        resolvedTypeDefs := [("A", .i32)]
        totalTypeDefs := 1
        generatedTypeDefs := 1 }
    { initialState with
        resolvedTypeDefs := [("A", .i32), ("Z", .u8)]
        totalTypeDefs := 2
        generatedTypeDefs := 2 }
    rfl rfl "A" rfl

/-! ## C9: duplicate function names overwrite; `generated` counts both -/

/-- C9: when two function definitions share a name and both fully map
(neither inline nor variadic, all parameters and return types mapped),
the symbol table ends with exactly one entry for that name, holding the
later definition's parameters, result and doc string, while `generated`
is incremented once per definition — it can therefore exceed the number
of symbol-table entries. -/
theorem C9_duplicate_name_overwrites
    (symbols : List Definition) (s : S) (n loc1 loc2 : String)
    (ps1 ps2 : List Parameter) (ret1 ret2 : Ty)
    (rs1 rs2 : List (Option NativeType)) (nts1 nts2 : List NativeType)
    (r1 r2 : NativeType)
    (hcount : countKey s.symbolSource n ≤ 1)
    (hm1 : mapParams s.resolvedTypeDefs ps1 = .ok rs1)
    (ha1 : allSome rs1 = some nts1)
    (hr1 : denoFFIType s.resolvedTypeDefs ret1 none = .ok (some r1))
    (hm2 : mapParams s.resolvedTypeDefs ps2 = .ok rs2)
    (ha2 : allSome rs2 = some nts2)
    (hr2 : denoFFIType s.resolvedTypeDefs ret2 none = .ok (some r2)) :
    ∃ s', runDefs symbols s
        [.function n loc1 false false ps1 ret1,
         .function n loc2 false false ps2 ret2] = .ok s' ∧
      s'.symbolSource =
        setEntry s.symbolSource n
          { parameters := nts2, result := r2, doc := n ++ " @ " ++ loc2 } ∧
      lookupE s'.symbolSource n =
        some { parameters := nts2, result := r2, doc := n ++ " @ " ++ loc2 } ∧
      countKey s'.symbolSource n = 1 ∧
      s'.generated = s.generated + 2 := by
  have step1 : processDef symbols s
      (.function n loc1 false false ps1 ret1) =
      .ok { s with
              total := s.total + 1
              symbolSource :=
                setEntry s.symbolSource n
                  { parameters := nts1
                    result := r1
                    doc := n ++ " @ " ++ loc1 }
              generated := s.generated + 1 } :=
    processFunction_success hm1 ha1 hr1
  have step2 : processDef symbols
      { s with
          total := s.total + 1
          symbolSource :=
            setEntry s.symbolSource n
              { parameters := nts1
                result := r1
                doc := n ++ " @ " ++ loc1 }
          generated := s.generated + 1 }
      (.function n loc2 false false ps2 ret2) =
      .ok { s with
              total := s.total + 1 + 1
              symbolSource :=
                setEntry
                  (setEntry s.symbolSource n
                    { parameters := nts1
                      result := r1
                      doc := n ++ " @ " ++ loc1 }) n
                  { parameters := nts2
                    result := r2
                    doc := n ++ " @ " ++ loc2 }
              generated := s.generated + 1 + 1 } :=
    processFunction_success hm2 ha2 hr2
  refine ⟨{ s with
              total := s.total + 1 + 1
              symbolSource :=
                setEntry
                  (setEntry s.symbolSource n
                    { parameters := nts1
                      result := r1
                      doc := n ++ " @ " ++ loc1 }) n
                  { parameters := nts2
                    result := r2
                    doc := n ++ " @ " ++ loc2 }
              generated := s.generated + 1 + 1 }, ?_, ?_, ?_, ?_, ?_⟩
  · show runDefs symbols s
        [.function n loc1 false false ps1 ret1,
         .function n loc2 false false ps2 ret2] = _
    simp only [runDefs, step1, step2]
  · show setEntry
        (setEntry s.symbolSource n
          { parameters := nts1, result := r1, doc := n ++ " @ " ++ loc1 }) n
        { parameters := nts2, result := r2, doc := n ++ " @ " ++ loc2 } = _
    exact setEntry_setEntry _ _ _ _
  · show lookupE
        (setEntry
          (setEntry s.symbolSource n
            { parameters := nts1, result := r1, doc := n ++ " @ " ++ loc1 })
          n
          { parameters := nts2, result := r2, doc := n ++ " @ " ++ loc2 })
        n = _
    rw [setEntry_setEntry, lookupE_setEntry]
    simp
  · show countKey
        (setEntry
          (setEntry s.symbolSource n
            { parameters := nts1, result := r1, doc := n ++ " @ " ++ loc1 })
          n
          { parameters := nts2, result := r2, doc := n ++ " @ " ++ loc2 })
        n = 1
    rw [countKey_setEntry, countKey_setEntry]
    omega
  · rfl

/-- Witness for C9: two zero-parameter functions both named `h`; the
final table has one entry for `h` carrying the second definition's data,
and `generated` ends at 2. -/
theorem C9_duplicate_name_overwrites_witness :
    ∃ s', runDefs [] initialState
        [.function "h" "l1" false false [] (Ty.mk ":int" none none),
         .function "h" "l2" false false [] (Ty.mk ":char" none none)] =
        .ok s' ∧
      s'.symbolSource =
        setEntry initialState.symbolSource "h"
          { parameters := [], result := .u8, doc := "h @ l2" } ∧
      lookupE s'.symbolSource "h" =
        some { parameters := [], result := .u8, doc := "h @ l2" } ∧
      countKey s'.symbolSource "h" = 1 ∧
      s'.generated = initialState.generated + 2 :=
  C9_duplicate_name_overwrites [] initialState "h" "l1" "l2" [] []
    (Ty.mk ":int" none none) (Ty.mk ":char" none none) [] [] [] []
    .i32 .u8 (by decide) rfl rfl rfl rfl rfl rfl
